import Mathlib

/-!
Verification of the Galaxy N-body simulator (src/main.cc) against its
natural-language specification.

The physics state is embedded over the real numbers: the C++ `float`
arithmetic of the simulator is idealised as exact real arithmetic, and
`sqrt` becomes `Real.sqrt`.  The headers `star.hh`, `vec2d.hh` and
`util.hh` are not part of the sources; the operations they declare
(`star::merge`, `star::radius`, `star::update`, `vec2d` arithmetic,
`drand`) are modelled from the specification, as noted on each
definition.  Everything in `main.cc` itself (the merge pass, the force
kernel, the index partition, the NaN purge, the galaxy spawner, the
barrier protocol) is translated directly from that file.
-/

namespace Galaxy

/-- 2D vector over ℝ, modelling `vec2d` (declared in vec2d.hh, used
throughout src/main.cc). -/
@[ext]
structure Vec2 where
  x : ℝ
  y : ℝ

instance : Add Vec2 := ⟨fun a b => ⟨a.x + b.x, a.y + b.y⟩⟩
instance : Sub Vec2 := ⟨fun a b => ⟨a.x - b.x, a.y - b.y⟩⟩
instance : Neg Vec2 := ⟨fun a => ⟨-a.x, -a.y⟩⟩
instance : SMul ℝ Vec2 := ⟨fun c v => ⟨c * v.x, c * v.y⟩⟩

@[simp] theorem Vec2.add_x (a b : Vec2) : (a + b).x = a.x + b.x := rfl
@[simp] theorem Vec2.add_y (a b : Vec2) : (a + b).y = a.y + b.y := rfl
@[simp] theorem Vec2.sub_x (a b : Vec2) : (a - b).x = a.x - b.x := rfl
@[simp] theorem Vec2.sub_y (a b : Vec2) : (a - b).y = a.y - b.y := rfl
@[simp] theorem Vec2.neg_x (a : Vec2) : (-a).x = -a.x := rfl
@[simp] theorem Vec2.neg_y (a : Vec2) : (-a).y = -a.y := rfl
@[simp] theorem Vec2.smul_x (c : ℝ) (v : Vec2) : (c • v).x = c * v.x := rfl
@[simp] theorem Vec2.smul_y (c : ℝ) (v : Vec2) : (c • v).y = c * v.y := rfl

/-- Modelled from the spec: Euclidean magnitude of a `vec2d`
(`vec2d::magnitude`, declared in the missing vec2d.hh; the spec calls it
the Euclidean distance between positions). -/
noncomputable def Vec2.magnitude (v : Vec2) : ℝ := Real.sqrt (v.x ^ 2 + v.y ^ 2)

/-- Modelled from the spec: unit vector in the direction of `v`
(`vec2d::normalized`, declared in the missing vec2d.hh; the spec calls it
`unit(·)`). -/
noncomputable def Vec2.normalized (v : Vec2) : Vec2 := (1 / v.magnitude) • v

/-- Dot product of two vectors (used to state tangentiality of spawn
velocities). -/
def Vec2.dot (a b : Vec2) : ℝ := a.x * b.x + a.y * b.y

/-- The star record of the simulation (star.hh is missing from the
sources; fields per spec §3: position, velocity, mass, transient
accumulated force).  Color is display-only and out of scope. -/
@[ext]
structure Star where
  mass : ℝ
  pos : Vec2
  vel : Vec2
  force : Vec2

/-- Modelled from the spec: `radius = 10 / sqrt(mass)` is the reference
radius function named in spec §3 (star::radius, declared in the missing
star.hh). -/
noncomputable def Star.radius (s : Star) : ℝ := 10 / Real.sqrt s.mass

/-- Modelled from the spec: `star::merge` (missing star.hh), per spec §3:
`mass' = mA + mB`, `velocity' = (mA*vA + mB*vB) / mass'`, `position'` =
position of the larger-mass input, first input winning ties; the merged
star starts with no accumulated force. -/
noncomputable def Star.merge (a b : Star) : Star :=
  { mass := a.mass + b.mass
    pos := if b.mass > a.mass then b.pos else a.pos
    vel := (1 / (a.mass + b.mass)) • (a.mass • a.vel + b.mass • b.vel)
    force := ⟨0, 0⟩ }

/-- Modelled from the spec: `star::addForce` (missing star.hh), spec §4.1:
accumulates the argument into the transient force field. -/
def Star.addForce (s : Star) (f : Vec2) : Star := { s with force := s.force + f }

/-- Modelled from the spec: `star::update` (missing star.hh), spec §4.1
semi-implicit Euler: `velocity += force / mass * dt`; `position +=
velocity * dt` using the updated velocity; the accumulated force is then
reset to zero. -/
noncomputable def Star.update (s : Star) (dt : ℝ) : Star :=
  let v := s.vel + (dt / s.mass) • s.force
  { s with vel := v, pos := s.pos + dt • v, force := ⟨0, 0⟩ }

/-- Time step size, src/main.cc line 25 (`#define DT 0.04`). -/
noncomputable def DT : ℝ := 0.04

/-- Gravitational constant, src/main.cc line 28 (`#define G 1`). -/
noncomputable def G : ℝ := 1

/-- Number of worker threads, src/main.cc line 31. -/
def numWorkerThreads : ℕ := 4

/-- Overlap predicate of the merge pass, src/main.cc lines 172-179: the
two stars are merged when the magnitude of the difference of their
positions is less than the sum of their radii. -/
noncomputable def overlap (a b : Star) : Prop :=
  Vec2.magnitude (a.pos - b.pos) < a.radius + b.radius

noncomputable instance (a b : Star) : Decidable (overlap a b) := by
  unfold overlap; exact inferInstance

/-- Inner loop of the merge pass (src/main.cc lines 170-186) for a fixed
outer index: the current star `s` is compared against each later entry in
turn; on overlap, `s` becomes the merged star and the entry is removed
(the `j--` after `erase` makes the loop continue with the next entry),
otherwise the entry is kept.  Returns the final star for the outer index
together with the surviving later entries. -/
noncomputable def mergeInto (s : Star) : List Star → Star × List Star
  | [] => (s, [])
  | t :: ts =>
    if overlap s t then mergeInto (s.merge t) ts
    else ((mergeInto s ts).1, t :: (mergeInto s ts).2)

theorem mergeInto_snd_length (s : Star) (l : List Star) :
    (mergeInto s l).2.length ≤ l.length := by
  induction l generalizing s with
  | nil => simp [mergeInto]
  | cons t ts ih =>
    by_cases h : overlap s t
    · simp only [mergeInto, if_pos h]
      exact le_trans (ih _) (Nat.le_succ _)
    · simp only [mergeInto, if_neg h, List.length_cons]
      exact Nat.succ_le_succ (ih s)

/-- Outer loop of the merge pass, src/main.cc lines 169-187: each index
in turn absorbs any overlapping later entries via `mergeInto`, then the
loop moves to the next surviving index. -/
noncomputable def mergePass : List Star → List Star
  | [] => []
  | s :: rest => (mergeInto s rest).1 :: mergePass (mergeInto s rest).2
termination_by l => l.length
decreasing_by
  simp only [List.length_cons]
  exact Nat.lt_succ_of_le (mergeInto_snd_length _ _)

/-- Helper: magnitude of a vector lying on the x-axis. -/
theorem magnitude_on_axis (d : ℝ) : Vec2.magnitude ⟨d, 0⟩ = |d| := by
  show Real.sqrt (d ^ 2 + 0 ^ 2) = |d|
  rw [zero_pow (Nat.succ_ne_zero 1), add_zero, Real.sqrt_sq_eq_abs]

/-- Helper: distance between two points on the x-axis. -/
theorem magnitude_mk_sub_mk (a b : ℝ) :
    Vec2.magnitude ((⟨a, 0⟩ : Vec2) - ⟨b, 0⟩) = |a - b| := by
  show Real.sqrt ((a - b) ^ 2 + ((0:ℝ) - 0) ^ 2) = |a - b|
  rw [sub_self, zero_pow (Nat.succ_ne_zero 1), add_zero, Real.sqrt_sq_eq_abs]

theorem sqrt_400 : Real.sqrt 400 = 20 := by
  rw [show (400:ℝ) = 20 ^ 2 by norm_num, Real.sqrt_sq (by norm_num : (0:ℝ) ≤ 20)]

theorem sqrt_100 : Real.sqrt 100 = 10 := by
  rw [show (100:ℝ) = 10 ^ 2 by norm_num, Real.sqrt_sq (by norm_num : (0:ℝ) ≤ 10)]

theorem sqrt_2500 : Real.sqrt 2500 = 50 := by
  rw [show (2500:ℝ) = 50 ^ 2 by norm_num, Real.sqrt_sq (by norm_num : (0:ℝ) ≤ 50)]

theorem sqrt_2100_lt : Real.sqrt 2100 < 50 := by
  have h := Real.sqrt_lt_sqrt (by norm_num : (0:ℝ) ≤ 2100) (by norm_num : (2100:ℝ) < 2500)
  rwa [sqrt_2500] at h

/-- Helper: the star of the §8 merge scenario with mass 10. -/
noncomputable def scnA : Star := ⟨10, ⟨0, 0⟩, ⟨3, 0⟩, ⟨0, 0⟩⟩

/-- Helper: the star of the §8 merge scenario with mass 20, at distance
1/2 from `scnA`. -/
noncomputable def scnB : Star := ⟨20, ⟨1/2, 0⟩, ⟨0, 6⟩, ⟨0, 0⟩⟩

theorem scn_dist : Vec2.magnitude (scnA.pos - scnB.pos) = 1/2 := by
  show Vec2.magnitude ((⟨0, 0⟩ : Vec2) - ⟨1/2, 0⟩) = 1/2
  rw [magnitude_mk_sub_mk, show (0:ℝ) - 1/2 = -(1/2) by norm_num, abs_neg,
    abs_of_nonneg (by norm_num : (0:ℝ) ≤ 1/2)]

theorem scnA_overlap_scnB : overlap scnA scnB := by
  show Vec2.magnitude (scnA.pos - scnB.pos) < scnA.radius + scnB.radius
  rw [scn_dist]
  show (1/2 : ℝ) < 10 / Real.sqrt (10:ℝ) + 10 / Real.sqrt (20:ℝ)
  have s10 : 0 < Real.sqrt 10 := Real.sqrt_pos.mpr (by norm_num)
  have s20 : 0 < Real.sqrt 20 := Real.sqrt_pos.mpr (by norm_num)
  have h1 : Real.sqrt 10 < 10 := by
    have h := Real.sqrt_lt_sqrt (by norm_num : (0:ℝ) ≤ 10) (by norm_num : (10:ℝ) < 100)
    rwa [sqrt_100] at h
  have h2 : (1:ℝ) < 10 / Real.sqrt 10 := (one_lt_div s10).mpr h1
  have h3 : (0:ℝ) < 10 / Real.sqrt 20 := div_pos (by norm_num) s20
  calc (1/2 : ℝ) < 1 := by norm_num
    _ < 10 / Real.sqrt 10 := h2
    _ ≤ 10 / Real.sqrt 10 + 10 / Real.sqrt 20 := le_add_of_nonneg_right (le_of_lt h3)

theorem mergePass_scn : mergePass [scnA, scnB] = [scnA.merge scnB] := by
  have h1 : mergeInto scnA [scnB] = (scnA.merge scnB, []) := by
    rw [mergeInto, if_pos scnA_overlap_scnB, mergeInto]
  rw [mergePass, h1, mergePass]

/-- C1: `merge(A,B)` has mass exactly `A.mass + B.mass`, velocity the
momentum-weighted average `(mA*vA + mB*vB)/(mA+mB)`, and the position of
the larger-mass input with the first star winning ties; in the §8
scenario (masses 10 and 20 at distance 1/2, closer than their combined
radius) one merge pass leaves a single star of mass 30 at the position of
the mass-20 star, with the momentum-weighted velocity. -/
theorem merge_conservation (a b : Star) :
    (a.merge b).mass = a.mass + b.mass ∧
    (a.merge b).vel = (1 / (a.mass + b.mass)) • (a.mass • a.vel + b.mass • b.vel) ∧
    (a.mass < b.mass → (a.merge b).pos = b.pos) ∧
    (b.mass ≤ a.mass → (a.merge b).pos = a.pos) ∧
    mergePass [scnA, scnB] = [⟨30, scnB.pos, ⟨1, 4⟩, ⟨0, 0⟩⟩] := by
  refine ⟨rfl, rfl, ?_, ?_, ?_⟩
  · intro h
    show (if b.mass > a.mass then b.pos else a.pos) = b.pos
    rw [if_pos h]
  · intro h
    show (if b.mass > a.mass then b.pos else a.pos) = a.pos
    rw [if_neg (not_lt_of_le h)]
  · have h : scnA.merge scnB = ⟨30, scnB.pos, ⟨1, 4⟩, ⟨0, 0⟩⟩ := by
      refine Star.ext ?_ ?_ ?_ rfl
      · show (10:ℝ) + 20 = 30
        norm_num
      · show (if (20:ℝ) > 10 then scnB.pos else scnA.pos) = scnB.pos
        rw [if_pos (by norm_num : (20:ℝ) > 10)]
      · show (1 / ((10:ℝ) + 20)) • ((10:ℝ) • (⟨3, 0⟩ : Vec2) + (20:ℝ) • ⟨0, 6⟩) = ⟨1, 4⟩
        refine Vec2.ext ?_ ?_
        · show (1 / ((10:ℝ) + 20)) * ((10:ℝ) * 3 + (20:ℝ) * 0) = 1
          norm_num
        · show (1 / ((10:ℝ) + 20)) * ((10:ℝ) * 0 + (20:ℝ) * 6) = 4
          norm_num
    rw [mergePass_scn, h]

/-- C1 witness: the merge position tie-break applied at the scenario
stars (mass 10 < mass 20, so the merged star sits at the mass-20 star's
position), via `merge_conservation`. -/
theorem merge_conservation_witness :
    scnA.mass < scnB.mass ∧ (scnA.merge scnB).pos = scnB.pos :=
  ⟨by show (10:ℝ) < 20; norm_num,
    (merge_conservation scnA scnB).2.2.1 (by show (10:ℝ) < 20; norm_num)⟩

/-- Helper: `mergeInto` keeps the star and the list unchanged when the
star overlaps none of the list's entries. -/
theorem mergeInto_id (s : Star) (l : List Star) (h : ∀ t ∈ l, ¬ overlap s t) :
    mergeInto s l = (s, l) := by
  induction l with
  | nil => rfl
  | cons t ts ih =>
    rw [mergeInto, if_neg (h t (by simp)), ih (fun u hu => h u (by simp [hu]))]

/-- Helper: a pass of the Collision Merger over a collection with no
overlapping pair is the identity. -/
theorem mergePass_id_aux (l : List Star)
    (h : l.Pairwise fun a b => ¬ overlap a b) : mergePass l = l := by
  induction l with
  | nil => rw [mergePass]
  | cons s rest ih =>
    rcases List.pairwise_cons.mp h with ⟨hs, hrest⟩
    rw [mergePass, mergeInto_id s rest hs]
    exact congrArg (s :: ·) (ih hrest)

/-- Helper: mass-400 star at the origin (radius 1/2) for the C2
counterexample. -/
noncomputable def cxA : Star := ⟨400, ⟨0, 0⟩, ⟨0, 0⟩, ⟨0, 0⟩⟩

/-- Helper: mass-100 star at x = 3/2 (radius 1) for the C2
counterexample; it does not overlap `cxA`. -/
noncomputable def cxB : Star := ⟨100, ⟨3/2, 0⟩, ⟨0, 0⟩, ⟨0, 0⟩⟩

/-- Helper: mass-2100 star at x = 7/10 for the C2 counterexample; it
overlaps `cxA`, and absorbing it moves `cxA` into overlap with `cxB`. -/
noncomputable def cxD : Star := ⟨2100, ⟨7/10, 0⟩, ⟨0, 0⟩, ⟨0, 0⟩⟩

theorem cx_dist_AB : Vec2.magnitude (cxA.pos - cxB.pos) = 3/2 := by
  show Vec2.magnitude ((⟨0, 0⟩ : Vec2) - ⟨3/2, 0⟩) = 3/2
  rw [magnitude_mk_sub_mk, show (0:ℝ) - 3/2 = -(3/2) by norm_num, abs_neg,
    abs_of_nonneg (by norm_num : (0:ℝ) ≤ 3/2)]

theorem cx_not_overlap_AB : ¬ overlap cxA cxB := by
  show ¬ Vec2.magnitude (cxA.pos - cxB.pos) < cxA.radius + cxB.radius
  rw [cx_dist_AB]
  show ¬ (3/2 : ℝ) < 10 / Real.sqrt (400:ℝ) + 10 / Real.sqrt (100:ℝ)
  rw [sqrt_400, sqrt_100]
  norm_num

theorem cx_overlap_AD : overlap cxA cxD := by
  show Vec2.magnitude (cxA.pos - cxD.pos) < cxA.radius + cxD.radius
  have hm : Vec2.magnitude (cxA.pos - cxD.pos) = 7/10 := by
    show Vec2.magnitude ((⟨0, 0⟩ : Vec2) - ⟨7/10, 0⟩) = 7/10
    rw [magnitude_mk_sub_mk, show (0:ℝ) - 7/10 = -(7/10) by norm_num, abs_neg,
      abs_of_nonneg (by norm_num : (0:ℝ) ≤ 7/10)]
  have hs : 0 < Real.sqrt 2100 := Real.sqrt_pos.mpr (by norm_num)
  have hd : (10:ℝ) / 50 < 10 / Real.sqrt 2100 :=
    div_lt_div_of_pos_left (by norm_num) hs sqrt_2100_lt
  show Vec2.magnitude (cxA.pos - cxD.pos) < 10 / Real.sqrt (400:ℝ) + 10 / Real.sqrt (2100:ℝ)
  rw [hm, sqrt_400]
  have h15 : (1:ℝ)/5 < 10 / Real.sqrt 2100 := by
    rw [show (1:ℝ)/5 = 10/50 by norm_num]
    exact hd
  calc (7:ℝ)/10 = 10/20 + 1/5 := by norm_num
    _ < 10/20 + 10 / Real.sqrt 2100 := add_lt_add_left h15 _

theorem cx_merge_AD : cxA.merge cxD = ⟨2500, ⟨7/10, 0⟩, ⟨0, 0⟩, ⟨0, 0⟩⟩ := by
  refine Star.ext ?_ ?_ ?_ rfl
  · show (400:ℝ) + 2100 = 2500
    norm_num
  · show (if (2100:ℝ) > 400 then (⟨7/10, 0⟩ : Vec2) else ⟨0, 0⟩) = ⟨7/10, 0⟩
    rw [if_pos (by norm_num : (2100:ℝ) > 400)]
  · show (1 / ((400:ℝ) + 2100)) • ((400:ℝ) • (⟨0, 0⟩ : Vec2) + (2100:ℝ) • ⟨0, 0⟩) = ⟨0, 0⟩
    refine Vec2.ext ?_ ?_
    · show (1 / ((400:ℝ) + 2100)) * ((400:ℝ) * 0 + (2100:ℝ) * 0) = 0
      rw [mul_zero, mul_zero, add_zero, mul_zero]
    · show (1 / ((400:ℝ) + 2100)) * ((400:ℝ) * 0 + (2100:ℝ) * 0) = 0
      rw [mul_zero, mul_zero, add_zero, mul_zero]

theorem cx_overlap_mergedB : overlap (cxA.merge cxD) cxB := by
  rw [cx_merge_AD]
  show Vec2.magnitude ((⟨7/10, 0⟩ : Vec2) - ⟨3/2, 0⟩) <
    (10:ℝ) / Real.sqrt (2500:ℝ) + 10 / Real.sqrt (100:ℝ)
  rw [magnitude_mk_sub_mk, show (7:ℝ)/10 - 3/2 = -(4/5) by norm_num, abs_neg,
    abs_of_nonneg (by norm_num : (0:ℝ) ≤ 4/5), sqrt_2500, sqrt_100]
  norm_num

theorem cx_first_pass : mergePass [cxA, cxB, cxD] = [cxA.merge cxD, cxB] := by
  have h1 : mergeInto cxA [cxD] = (cxA.merge cxD, []) := by
    rw [mergeInto, if_pos cx_overlap_AD, mergeInto]
  have h2 : mergeInto cxA [cxB, cxD] = (cxA.merge cxD, [cxB]) := by
    rw [mergeInto, if_neg cx_not_overlap_AB, h1]
  rw [mergePass, h2, mergePass, mergeInto, mergePass]

/-- C2 counterexample: the merge pass of `updateStars` does not reach a
fixed point.  On the three stars `cxA`, `cxB`, `cxD`, the pass merges
`cxA` with `cxD` after having already compared `cxA` against `cxB`; the
merged star sits at `cxD`'s position, where it overlaps `cxB`, and the
pass never re-checks that pair, so two overlapping stars remain and a
second run changes the collection. -/
theorem mergePass_not_fixed_point :
    mergePass [cxA, cxB, cxD] = [cxA.merge cxD, cxB] ∧
    overlap (cxA.merge cxD) cxB ∧
    mergePass (mergePass [cxA, cxB, cxD]) ≠ mergePass [cxA, cxB, cxD] := by
  refine ⟨cx_first_pass, cx_overlap_mergedB, ?_⟩
  rw [cx_first_pass]
  have h1 : mergeInto (cxA.merge cxD) [cxB] = ((cxA.merge cxD).merge cxB, []) := by
    rw [mergeInto, if_pos cx_overlap_mergedB, mergeInto]
  rw [mergePass, h1, mergePass]
  intro h
  have := congrArg List.length h
  simp at this

/-- C2 amended: one pass of the Collision Merger is not in general a
fixed point (see `mergePass_not_fixed_point`); what holds is that a
collection in which no two stars satisfy the overlap predicate is left
unchanged by the pass, so on such collections a second run is the
identity as well. -/
theorem mergePass_id_of_no_overlap (l : List Star)
    (h : l.Pairwise fun a b => ¬ overlap a b) :
    mergePass l = l ∧ mergePass (mergePass l) = mergePass l := by
  have h1 := mergePass_id_aux l h
  exact ⟨h1, by rw [h1, h1]⟩

/-- C2 amended witness: the two non-overlapping stars `cxA`, `cxB` are
left unchanged by the merge pass, via `mergePass_id_of_no_overlap`. -/
theorem mergePass_id_of_no_overlap_witness :
    ([cxA, cxB].Pairwise fun a b => ¬ overlap a b) ∧ mergePass [cxA, cxB] = [cxA, cxB] := by
  have hp : [cxA, cxB].Pairwise fun a b => ¬ overlap a b := by
    refine List.Pairwise.cons ?_ (List.pairwise_singleton _ _)
    intro t ht
    rw [List.mem_singleton.mp ht]
    exact cx_not_overlap_AB
  exact ⟨hp, (mergePass_id_of_no_overlap [cxA, cxB] hp).1⟩

/-- Helper: mass-100 star for the radius monotonicity claims. -/
noncomputable def rsSmall : Star := ⟨100, ⟨0, 0⟩, ⟨0, 0⟩, ⟨0, 0⟩⟩

/-- Helper: mass-2500 star for the radius monotonicity claims. -/
noncomputable def rsBig : Star := ⟨2500, ⟨0, 0⟩, ⟨0, 0⟩, ⟨0, 0⟩⟩

/-- C9 counterexample: the derived radius `10 / sqrt(mass)` is not
increasing in the mass: the mass-100 star has radius 1, the mass-2500
star radius 1/5. -/
theorem radius_not_increasing :
    rsSmall.mass < rsBig.mass ∧ ¬ rsSmall.radius < rsBig.radius := by
  constructor
  · show (100:ℝ) < 2500
    norm_num
  · show ¬ (10 / Real.sqrt (100:ℝ) < 10 / Real.sqrt (2500:ℝ))
    rw [sqrt_100, sqrt_2500]
    norm_num

/-- C9 amended: the derived radius `10 / sqrt(mass)` is a strictly
decreasing function of the mass on positive masses: `m1 < m2` implies
`radius(m2) < radius(m1)`. -/
theorem radius_strict_anti (s t : Star) (hs : 0 < s.mass) (hst : s.mass < t.mass) :
    t.radius < s.radius := by
  unfold Star.radius
  have h1 : Real.sqrt s.mass < Real.sqrt t.mass := Real.sqrt_lt_sqrt (le_of_lt hs) hst
  have h2 : 0 < Real.sqrt s.mass := Real.sqrt_pos.mpr hs
  exact div_lt_div_of_pos_left (by norm_num) h2 h1

/-- C9 amended witness: the radius of the mass-2500 star is smaller than
that of the mass-100 star, via `radius_strict_anti`. -/
theorem radius_strict_anti_witness :
    0 < rsSmall.mass ∧ rsSmall.mass < rsBig.mass ∧ rsBig.radius < rsSmall.radius :=
  ⟨by show (0:ℝ) < 100; norm_num, by show (100:ℝ) < 2500; norm_num,
    radius_strict_anti rsSmall rsBig (by show (0:ℝ) < 100; norm_num)
      (by show (100:ℝ) < 2500; norm_num)⟩

/-- Helper: magnitude scales by the absolute value under scalar
multiplication. -/
theorem magnitude_smul (c : ℝ) (v : Vec2) : (c • v).magnitude = |c| * v.magnitude := by
  show Real.sqrt ((c * v.x) ^ 2 + (c * v.y) ^ 2) = |c| * Real.sqrt (v.x ^ 2 + v.y ^ 2)
  rw [mul_pow, mul_pow, ← mul_add, Real.sqrt_mul (sq_nonneg c), Real.sqrt_sq_eq_abs]

/-- Helper: magnitude is invariant under negation. -/
theorem magnitude_neg (v : Vec2) : (-v).magnitude = v.magnitude := by
  show Real.sqrt ((-v.x) ^ 2 + (-v.y) ^ 2) = Real.sqrt (v.x ^ 2 + v.y ^ 2)
  rw [neg_sq, neg_sq]

/-- Helper: the scalar identity behind pulling the normalization factor
into the force coefficient. -/
theorem div_sq_mul_div (m d x : ℝ) :
    m / d ^ 2 * (1 / d * x) = m / d ^ 3 * x := by
  rw [← mul_assoc, div_mul_div_comm, mul_one, ← pow_succ]

/-- Helper: the magnitude of a scaled, negated unit vector is the scale. -/
theorem magnitude_smul_neg_normalized (k : ℝ) (v : Vec2) (hk : 0 ≤ k)
    (hd : 0 < v.magnitude) :
    Vec2.magnitude (k • -((1 / v.magnitude) • v)) = k := by
  rw [magnitude_smul, magnitude_neg, magnitude_smul,
    abs_of_nonneg hk, abs_of_nonneg (le_of_lt (one_div_pos.mpr hd)), one_div,
    inv_mul_cancel₀ (ne_of_gt hd), mul_one]

/-- Helper: pulling the normalization scalar out of the force expression. -/
theorem smul_neg_normalized (m d : ℝ) (v : Vec2) :
    (m / d ^ 2) • (-((1 / d) • v)) = (m / d ^ 3) • (-v) := by
  refine Vec2.ext ?_ ?_
  · show m / d ^ 2 * (-(1 / d * v.x)) = m / d ^ 3 * (-v.x)
    rw [mul_neg, mul_neg, div_sq_mul_div]
  · show m / d ^ 2 * (-(1 / d * v.y)) = m / d ^ 3 * (-v.y)
    rw [mul_neg, mul_neg, div_sq_mul_div]

/-- Helper: negation of a difference of vectors. -/
theorem neg_sub_vec (a b : Vec2) : -(a - b) = b - a := by
  refine Vec2.ext ?_ ?_
  · show -(a.x - b.x) = b.x - a.x
    rw [neg_sub]
  · show -(a.y - b.y) = b.y - a.y
    rw [neg_sub]

theorem G_eq : G = 1 := rfl

/-- Force contribution accumulated into star `a` (the outer index) from
star `b` (the inner index), src/main.cc lines 207-220:
`diff = a.pos - b.pos; dist = diff.magnitude();
force = -diff.normalized() * G * m1 * m2 / pow(dist, 2)`. -/
noncomputable def forceOn (a b : Star) : Vec2 :=
  (G * a.mass * b.mass / Vec2.magnitude (a.pos - b.pos) ^ 2) •
    (-Vec2.normalized (a.pos - b.pos))

/-- Helper: the mass-10 star of the §8 force scenario, at the origin. -/
noncomputable def fsA : Star := ⟨10, ⟨0, 0⟩, ⟨0, 0⟩, ⟨0, 0⟩⟩

/-- Helper: the mass-20 star of the §8 force scenario, at distance 5 from
`fsA` on the x-axis. -/
noncomputable def fsB : Star := ⟨20, ⟨5, 0⟩, ⟨0, 0⟩, ⟨0, 0⟩⟩

theorem fs_diff : fsA.pos - fsB.pos = (⟨-5, 0⟩ : Vec2) := by
  show (⟨(0:ℝ) - 5, (0:ℝ) - 0⟩ : Vec2) = ⟨-5, 0⟩
  rw [show (0:ℝ) - 5 = -5 by norm_num, show (0:ℝ) - 0 = 0 by norm_num]

theorem fs_mag : Vec2.magnitude (fsA.pos - fsB.pos) = 5 := by
  show Vec2.magnitude ((⟨0, 0⟩ : Vec2) - ⟨5, 0⟩) = 5
  rw [magnitude_mk_sub_mk, show (0:ℝ) - 5 = -5 by norm_num, abs_neg,
    abs_of_nonneg (by norm_num : (0:ℝ) ≤ 5)]

/-- C3: the force contribution on a star `a` from a star `b` at positive
distance `d` is `-G*mA*mB/d^2 * unit(a.pos - b.pos)`, i.e. a positive
multiple `G*mA*mB/d^3` of the vector from `a` to `b` (attractive, along
the joining line), with magnitude exactly `G*mA*mB/d^2` (inverse-square);
for the §8 scenario stars of masses 10 and 20 at distance 5 with G = 1,
the force on the first star is `(8, 0)`: magnitude 8, directed toward the
second. -/
theorem forceOn_inverse_square (a b : Star)
    (hd : 0 < Vec2.magnitude (a.pos - b.pos))
    (hma : 0 ≤ a.mass) (hmb : 0 ≤ b.mass) :
    forceOn a b =
      (G * a.mass * b.mass / Vec2.magnitude (a.pos - b.pos) ^ 3) • (b.pos - a.pos) ∧
    Vec2.magnitude (forceOn a b) =
      G * a.mass * b.mass / Vec2.magnitude (a.pos - b.pos) ^ 2 ∧
    forceOn fsA fsB = ⟨8, 0⟩ := by
  refine ⟨?_, ?_, ?_⟩
  · show (G * a.mass * b.mass / Vec2.magnitude (a.pos - b.pos) ^ 2) •
        (-((1 / Vec2.magnitude (a.pos - b.pos)) • (a.pos - b.pos))) = _
    rw [smul_neg_normalized, neg_sub_vec]
  · have hg : (0:ℝ) ≤ G := zero_le_one.trans_eq G_eq.symm
    have hk : 0 ≤ G * a.mass * b.mass / Vec2.magnitude (a.pos - b.pos) ^ 2 :=
      div_nonneg (mul_nonneg (mul_nonneg hg hma) hmb) (sq_nonneg _)
    exact magnitude_smul_neg_normalized _ _ hk hd
  · show (G * fsA.mass * fsB.mass / Vec2.magnitude (fsA.pos - fsB.pos) ^ 2) •
        (-((1 / Vec2.magnitude (fsA.pos - fsB.pos)) • (fsA.pos - fsB.pos))) = (⟨8, 0⟩ : Vec2)
    rw [fs_mag, fs_diff]
    show ((1:ℝ) * 10 * 20 / 5 ^ 2) • (-((1 / (5:ℝ)) • (⟨-5, 0⟩ : Vec2))) = ⟨8, 0⟩
    refine Vec2.ext ?_ ?_
    · show (1:ℝ) * 10 * 20 / 5 ^ 2 * (-(1 / 5 * (-5))) = 8
      norm_num
    · show (1:ℝ) * 10 * 20 / 5 ^ 2 * (-(1 / 5 * 0)) = 0
      norm_num

/-- C3 witness: the §8 force scenario, via `forceOn_inverse_square`: at
distance 5 the masses 10 and 20 attract with force `(8, 0)`. -/
theorem forceOn_inverse_square_witness :
    0 < Vec2.magnitude (fsA.pos - fsB.pos) ∧ forceOn fsA fsB = ⟨8, 0⟩ := by
  have hd : 0 < Vec2.magnitude (fsA.pos - fsB.pos) := by rw [fs_mag]; norm_num
  exact ⟨hd,
    (forceOn_inverse_square fsA fsB hd (by show (0:ℝ) ≤ 10; norm_num)
      (by show (0:ℝ) ≤ 20; norm_num)).2.2⟩

/-- Ownership test of the static partition, src/main.cc line 201: the
worker that read thread number `num` updates star index `i` iff
`i % NUM_WORKER_THREADS == num`. -/
def owns (num i : ℕ) : Prop := i % numWorkerThreads = num

/-- Model of the worker-ID handoff of src/main.cc lines 77-79: each
thread is created with the address of the loop variable
(`pthread_create(&threads[i], NULL, thread_fn, &i)`) and dereferences it
only later (line 194), unsynchronized.  The value worker `k` observes is
whatever `i` holds at read time: at least `k` (its value when the thread
was created, since `i` only increases) and at most `numWorkerThreads`
(its value when the creation loop exits; after that the variable is dead
and the read is undefined, modelled optimistically as still returning its
last value).  A family of observed IDs is consistent with this race when
every read lies in that window. -/
def raceConsistent (ids : Fin numWorkerThreads → ℕ) : Prop :=
  ∀ k : Fin numWorkerThreads, (k : ℕ) ≤ ids k ∧ ids k ≤ numWorkerThreads

/-- C4: evaluation of the `&i` thread-argument race at a failing
schedule.  The outcome in which all four workers dereference the loop
variable only after the creation loop has finished (so each reads 4) is
race-consistent, and under it no worker owns any star index: the observed
IDs are neither distinct nor within 0..W-1, and the claimed
exactly-one-writer partition of `{0..n-1}` fails.  The last conjunct
shows the partition the claim describes does hold for the intended IDs:
with ownership taken over `num` in 0..W-1, every index has exactly one
owner. -/
theorem thread_id_race_breaks_partition :
    raceConsistent (fun _ => 4) ∧
    (∀ i : ℕ, ∀ k : Fin numWorkerThreads, ¬ owns ((fun _ => 4) k) i) ∧
    (∀ i : ℕ, ∃! num : ℕ, num < numWorkerThreads ∧ owns num i) := by
  refine ⟨?_, ?_, ?_⟩
  · intro k
    exact ⟨Nat.le_of_lt k.isLt, le_refl _⟩
  · intro i k
    show ¬ owns 4 i
    intro h
    exact absurd (h ▸ Nat.mod_lt i (Nat.succ_pos 3)) (lt_irrefl 4)
  · intro i
    refine ⟨i % numWorkerThreads,
      ⟨Nat.mod_lt _ (Nat.succ_pos 3), rfl⟩, ?_⟩
    rintro y ⟨-, hy⟩
    exact hy.symm

/-- Model of an IEEE-754 float for the coordinator's validity check: a
finite value (idealised as a rational), an infinity, or NaN. -/
inductive FVal
  | fin (q : ℚ)
  | posInf
  | negInf
  | nan

/-- IEEE-754 `==` on the float model: NaN compares unequal to everything,
itself included; an infinity compares equal to itself; finite values
compare as numbers.  The check in src/main.cc line 139 relies on `x != x`
holding exactly for NaN. -/
def FVal.feq : FVal → FVal → Bool
  | .fin a, .fin b => a == b
  | .posInf, .posInf => true
  | .negInf, .negInf => true
  | _, _ => false

/-- A star as seen by the coordinator's validity check: position and
velocity coordinates in the float model (the other fields play no role in
the check). -/
structure FStar where
  px : FVal
  py : FVal
  vx : FVal
  vy : FVal

/-- The coordinator's per-frame validity purge, src/main.cc lines
137-145: a star is erased iff `pos().x() != pos().x() || pos().y() !=
pos().y()` (the self-inequality NaN test, applied to the position only);
the `erase` plus `i--` loop visits every entry once and keeps the others
in order. -/
def purge : List FStar → List FStar
  | [] => []
  | s :: rest =>
    if FVal.feq s.px s.px && FVal.feq s.py s.py then s :: purge rest
    else purge rest

/-- Helper: self-equality in the float model fails exactly on NaN. -/
theorem FVal.feq_self_iff (v : FVal) : FVal.feq v v = true ↔ v ≠ FVal.nan := by
  cases v <;> simp [FVal.feq]

/-- Helper: a star with an infinite x-position (finite velocity). -/
def infPosStar : FStar := ⟨FVal.posInf, FVal.fin 0, FVal.fin 0, FVal.fin 0⟩

/-- Helper: a star with finite position and NaN velocity. -/
def nanVelStar : FStar := ⟨FVal.fin 0, FVal.fin 0, FVal.nan, FVal.nan⟩

/-- Helper: a star with a NaN x-position. -/
def nanPosStar : FStar := ⟨FVal.nan, FVal.fin 0, FVal.fin 0, FVal.fin 0⟩

/-- C10: the validity check removes a star exactly when one of its two
position coordinates is NaN; a star with an infinite position coordinate
passes the self-equality test, and a NaN velocity is never examined, so
both such stars remain in the collection. -/
theorem purge_only_nan_position :
    (∀ s : FStar, purge [s] = [] ↔ s.px = FVal.nan ∨ s.py = FVal.nan) ∧
    purge [infPosStar, nanVelStar, nanPosStar] = [infPosStar, nanVelStar] := by
  constructor
  · rintro ⟨px, py, vx, vy⟩
    rw [purge, purge]
    by_cases h : (FVal.feq px px && FVal.feq py py) = true
    · rw [if_pos h]
      rw [Bool.and_eq_true, FVal.feq_self_iff, FVal.feq_self_iff] at h
      constructor
      · intro hc
        exact absurd hc (List.cons_ne_nil _ _)
      · intro hor
        rcases hor with h1 | h1
        · exact absurd h1 h.1
        · exact absurd h1 h.2
    · rw [if_neg h]
      rw [Bool.and_eq_true, FVal.feq_self_iff, FVal.feq_self_iff] at h
      constructor
      · intro _
        rcases not_and_or.mp h with h1 | h1
        · exact Or.inl (not_not.mp h1)
        · exact Or.inr (not_not.mp h1)
      · intro _
        rfl
  · rfl

/-- C8 counterexample: a star whose velocity is NaN (with finite
position) and a star with an infinite position coordinate are both
non-finite, yet the coordinator's check keeps both in the collection, so
"position or velocity becomes non-finite" does not imply removal. -/
theorem purge_keeps_nonfinite :
    purge [nanVelStar, infPosStar] = [nanVelStar, infPosStar] ∧
    purge [nanVelStar, infPosStar] ≠ [] := ⟨rfl, fun h => List.noConfusion h⟩

/-- C8 amended: the per-frame check removes exactly the stars having a
NaN position coordinate — infinities and velocities are not examined.
The purge equals the filter keeping self-equal positions, so every
surviving star is kept unchanged and in order (no other star is
affected), and a removed star is exactly one with `px` or `py` NaN. -/
theorem purge_filters_nan_positions :
    (∀ l : List FStar,
      purge l = l.filter (fun s => FVal.feq s.px s.px && FVal.feq s.py s.py)) ∧
    (∀ s : FStar,
      (FVal.feq s.px s.px && FVal.feq s.py s.py) = false ↔
        s.px = FVal.nan ∨ s.py = FVal.nan) ∧
    purge [nanPosStar] = [] := by
  refine ⟨?_, ?_, rfl⟩
  · intro l
    induction l with
    | nil => rfl
    | cons s rest ih =>
      by_cases h : (FVal.feq s.px s.px && FVal.feq s.py s.py) = true
      · simp [purge, List.filter_cons, h, ih]
      · simp [purge, List.filter_cons, h, ih]
  · rintro ⟨px, py, vx, vy⟩
    cases px <;> cases py <;> simp [FVal.feq]

/-- Modelled from the spec: `drand(lo, hi)` (declared in the missing
util.hh) draws a value uniformly from [lo, hi]; sample-wise, the draw
obtained from a unit sample `u ∈ [0,1]` is `lo + u * (hi - lo)`. -/
noncomputable def drand (lo hi u : ℝ) : ℝ := lo + u * (hi - lo)

/-- The per-star random draws of `addRandomGalaxy` (src/main.cc lines
249-267), as unit samples in [0,1]: the angle draw, the two radial factor
draws, and the velocity scale draw.  The color draws are display-only and
omitted. -/
structure StarDraw where
  uAngle : ℝ
  uR1 : ℝ
  uR2 : ℝ
  uVel : ℝ

/-- The per-call random draws of `addRandomGalaxy` (src/main.cc lines
234-248): the `rand()` value behind the star count, the unit sample of
the base radius, the `rand()` value behind the rotation direction, and
one `StarDraw` per created star. -/
structure GalaxyDraw where
  countRand : ℕ
  uRadius : ℝ
  dirRand : ℕ
  starDraws : List StarDraw

/-- The angle draw of one spawned star, src/main.cc line 251:
`drand(0, M_PI * 2)`. -/
noncomputable def starAngle (d : StarDraw) : ℝ := drand 0 (Real.pi * 2) d.uAngle

/-- The radial offset draw of one spawned star, src/main.cc line 253:
`drand(0, sqrt(radius)) * drand(0, sqrt(radius))` — the product of two
uniform draws from [0, sqrt(radius)]. -/
noncomputable def starPointRadius (radius : ℝ) (d : StarDraw) : ℝ :=
  drand 0 (Real.sqrt radius) d.uR1 * drand 0 (Real.sqrt radius) d.uR2

/-- Center-relative position of one spawned star, src/main.cc lines
255-259: `(point_radius * sin(angle), point_radius * cos(angle))`. -/
noncomputable def starRelPos (radius : ℝ) (d : StarDraw) : Vec2 :=
  ⟨starPointRadius radius d * Real.sin (starAngle d),
   starPointRadius radius d * Real.cos (starAngle d)⟩

/-- Velocity of one spawned star, src/main.cc line 261:
`(-cos(angle), sin(angle)) * sqrt(point_radius) * direction *
drand(0.25, 1.25)`. -/
noncomputable def starVel (radius direction : ℝ) (d : StarDraw) : Vec2 :=
  (Real.sqrt (starPointRadius radius d) * direction * drand 0.25 1.25 d.uVel) •
    (⟨-Real.cos (starAngle d), Real.sin (starAngle d)⟩ : Vec2)

/-- One star of `addRandomGalaxy`, src/main.cc lines 249-267: the star is
pushed with mass `10 / sqrt(pos.magnitude())` (pos center-relative) at
position `pos + center`, with the tangential velocity above. -/
noncomputable def spawnStar (center : Vec2) (radius direction : ℝ) (d : StarDraw) : Star :=
  { mass := 10 / Real.sqrt (starRelPos radius d).magnitude
    pos := starRelPos radius d + center
    vel := starVel radius direction d
    force := ⟨0, 0⟩ }

/-- The galaxy spawner, src/main.cc lines 234-268: `count = rand() % 500 +
500` stars, base radius `drand(50, 200)`, direction −1 if `rand() % 2 ==
0` else +1 (chosen once per call), then `count` stars each built by
`spawnStar` from its own draws. -/
noncomputable def addRandomGalaxy (cx cy : ℝ) (g : GalaxyDraw) : List Star :=
  let count := g.countRand % 500 + 500
  let radius := drand 50 200 g.uRadius
  let center : Vec2 := ⟨cx, cy⟩
  let direction : ℝ := if g.dirRand % 2 = 0 then -1 else 1
  (g.starDraws.take count).map (spawnStar center radius direction)

/-- Radial offset as the claim words it: `sqrt(U(0,R)) * sqrt(U(0,R))`,
the product of the square roots of two uniform draws from [0, R]. -/
noncomputable def specPointRadius (radius u1 u2 : ℝ) : ℝ :=
  Real.sqrt (drand 0 radius u1) * Real.sqrt (drand 0 radius u2)

theorem sqrt_25 : Real.sqrt 25 = 5 := by
  rw [show (25:ℝ) = 5 ^ 2 by norm_num, Real.sqrt_sq (by norm_num : (0:ℝ) ≤ 5)]

/-- Helper: the star draw with both radial unit samples 1/4. -/
noncomputable def quarterDraw : StarDraw := ⟨0, 1/4, 1/4, 0⟩

/-- C6 counterexample: the radial offset is not drawn as
`sqrt(U(0,R)) * sqrt(U(0,R))`.  With base radius 100 and both unit
samples 1/4, the code (two uniform draws from [0, sqrt(100)] = [0,10])
produces 2.5 * 2.5 = 25/4, while the claimed formula (square roots of two
uniform draws from [0,100]) produces sqrt(25) * sqrt(25) = 25. -/
theorem point_radius_draw_differs :
    starPointRadius 100 quarterDraw = 25/4 ∧
    specPointRadius 100 (1/4) (1/4) = 25 ∧
    starPointRadius 100 quarterDraw ≠ specPointRadius 100 (1/4) (1/4) := by
  have hc : starPointRadius 100 quarterDraw = 25/4 := by
    show drand 0 (Real.sqrt 100) (1/4) * drand 0 (Real.sqrt 100) (1/4) = 25/4
    rw [sqrt_100]
    show ((0:ℝ) + 1/4 * (10 - 0)) * ((0:ℝ) + 1/4 * (10 - 0)) = 25/4
    norm_num
  have hs : specPointRadius 100 (1/4) (1/4) = 25 := by
    show Real.sqrt ((0:ℝ) + 1/4 * (100 - 0)) * Real.sqrt ((0:ℝ) + 1/4 * (100 - 0)) = 25
    rw [show (0:ℝ) + 1/4 * (100 - 0) = 25 by norm_num, sqrt_25]
    norm_num
  exact ⟨hc, hs, by rw [hc, hs]; norm_num⟩

/-- Helper: subtracting the added center recovers the center-relative
position. -/
theorem vec_add_sub_cancel (v c : Vec2) : v + c - c = v := by
  refine Vec2.ext ?_ ?_
  · show v.x + c.x - c.x = v.x
    rw [add_sub_cancel_right]
  · show v.y + c.y - c.y = v.y
    rw [add_sub_cancel_right]

/-- Helper: a tangential velocity has zero dot product with the radial
position, at the level of the polar components. -/
theorem dot_tangent (k pr s c : ℝ) :
    Vec2.dot (k • (⟨-c, s⟩ : Vec2)) ⟨pr * s, pr * c⟩ = 0 := by
  show k * -c * (pr * s) + k * s * (pr * c) = 0
  rw [mul_neg, neg_mul, neg_add_eq_zero, mul_comm pr s, mul_comm pr c,
    mul_mul_mul_comm k c s pr]

/-- Helper: the tangential unit vector has magnitude one. -/
theorem magnitude_tangent (θ : ℝ) : Vec2.magnitude ⟨-Real.cos θ, Real.sin θ⟩ = 1 := by
  show Real.sqrt ((-Real.cos θ) ^ 2 + Real.sin θ ^ 2) = 1
  rw [neg_sq, add_comm, Real.sin_sq_add_cos_sq, Real.sqrt_one]

/-- C6 amended: `spawnGalaxy` produces `rand() % 500 + 500 ∈ [500, 999]`
stars; the radial offset is the product of two uniform draws from
`[0, sqrt(R)]` (not `sqrt(U(0,R))*sqrt(U(0,R))`, see
`point_radius_draw_differs`) with the base radius R uniform in [50, 200];
each velocity is tangential (its dot product with the center-relative
position is exactly zero) with magnitude `sqrt(point_radius) * U(0.25,
1.25)`; and a single rotation direction ±1 is chosen per call and shared
by every spawned star. -/
theorem spawnGalaxy_amended (cx cy : ℝ) (g : GalaxyDraw)
    (hlen : g.countRand % 500 + 500 ≤ g.starDraws.length) :
    (500 ≤ g.countRand % 500 + 500 ∧ g.countRand % 500 + 500 ≤ 999 ∧
      (addRandomGalaxy cx cy g).length = g.countRand % 500 + 500) ∧
    (∀ (center : Vec2) (radius direction : ℝ) (d : StarDraw),
      Vec2.dot (spawnStar center radius direction d).vel
        ((spawnStar center radius direction d).pos - center) = 0) ∧
    (∀ (center : Vec2) (radius : ℝ) (direction : ℝ) (d : StarDraw),
      direction = 1 ∨ direction = -1 → 0 ≤ d.uVel →
      Vec2.magnitude (spawnStar center radius direction d).vel =
        Real.sqrt (starPointRadius radius d) * drand 0.25 1.25 d.uVel) ∧
    (∃ direction : ℝ, (direction = -1 ∨ direction = 1) ∧
      addRandomGalaxy cx cy g =
        (g.starDraws.take (g.countRand % 500 + 500)).map
          (spawnStar ⟨cx, cy⟩ (drand 50 200 g.uRadius) direction)) := by
  refine ⟨⟨?_, ?_, ?_⟩, ?_, ?_, ?_⟩
  · exact Nat.le_add_left 500 _
  · exact Nat.add_le_add_right
      (Nat.lt_succ_iff.mp (Nat.mod_lt _ (Nat.succ_pos 499))) 500
  · show ((g.starDraws.take (g.countRand % 500 + 500)).map _).length =
      g.countRand % 500 + 500
    rw [List.length_map, List.length_take]
    exact min_eq_left hlen
  · intro center radius direction d
    show Vec2.dot (starVel radius direction d) (starRelPos radius d + center - center) = 0
    rw [vec_add_sub_cancel]
    exact dot_tangent _ _ _ _
  · intro center radius direction d hdir hu
    have habs : |direction| = 1 := by
      rcases hdir with h | h
      · rw [h, abs_one]
      · rw [h, abs_neg, abs_one]
    have hv : (0:ℝ) ≤ drand 0.25 1.25 d.uVel :=
      add_nonneg (by norm_num) (mul_nonneg hu (by norm_num))
    show Vec2.magnitude ((Real.sqrt (starPointRadius radius d) * direction *
        drand 0.25 1.25 d.uVel) •
        (⟨-Real.cos (starAngle d), Real.sin (starAngle d)⟩ : Vec2)) = _
    rw [magnitude_smul, magnitude_tangent, mul_one, abs_mul, abs_mul, habs, mul_one,
      abs_of_nonneg (Real.sqrt_nonneg _), abs_of_nonneg hv]
  · by_cases h : g.dirRand % 2 = 0
    · exact ⟨-1, Or.inl rfl, by simp only [addRandomGalaxy, if_pos h]⟩
    · exact ⟨1, Or.inr rfl, by simp only [addRandomGalaxy, if_neg h]⟩

/-- C6 amended witness: a call with 500 zero draws spawns exactly 500
stars, via `spawnGalaxy_amended`. -/
theorem spawnGalaxy_amended_witness :
    (addRandomGalaxy 0 0 ⟨0, 0, 0, List.replicate 500 ⟨0, 0, 0, 0⟩⟩).length = 0 % 500 + 500 :=
  ((spawnGalaxy_amended 0 0 ⟨0, 0, 0, List.replicate 500 ⟨0, 0, 0, 0⟩⟩
    (by simp only [List.length_replicate]; omega)).1).2.2

/-- Helper: the all-zero star draw, which lands its star exactly at the
spawn center. -/
noncomputable def zeroDraw : StarDraw := ⟨0, 0, 0, 0⟩

/-- C7 counterexample: nothing guards the spawn center.  With a radial
factor draw of 0 the spawned star's position is exactly the spawn center,
and the divisor `sqrt(|pos - center|)` of the mass computation is 0: in
the C++ float semantics `10 / sqrt(0)` is infinite, so a spawned star CAN
have non-finite mass and the claimed explicit guard does not exist. -/
theorem spawn_center_zero_divisor :
    (spawnStar ⟨0, 0⟩ 50 1 zeroDraw).pos = (⟨0, 0⟩ : Vec2) ∧
    Real.sqrt (Vec2.magnitude ((spawnStar ⟨0, 0⟩ 50 1 zeroDraw).pos - ⟨0, 0⟩)) = 0 := by
  have hpr : starPointRadius 50 zeroDraw = 0 := by
    show ((0:ℝ) + 0 * (Real.sqrt 50 - 0)) * ((0:ℝ) + 0 * (Real.sqrt 50 - 0)) = 0
    rw [zero_mul, add_zero, zero_mul]
  have hrel : starRelPos 50 zeroDraw = (⟨0, 0⟩ : Vec2) := by
    show (⟨starPointRadius 50 zeroDraw * Real.sin (starAngle zeroDraw),
      starPointRadius 50 zeroDraw * Real.cos (starAngle zeroDraw)⟩ : Vec2) = ⟨0, 0⟩
    rw [hpr, zero_mul, zero_mul]
  have hpos : (spawnStar ⟨0, 0⟩ 50 1 zeroDraw).pos = (⟨0, 0⟩ : Vec2) := by
    show starRelPos 50 zeroDraw + ⟨0, 0⟩ = (⟨0, 0⟩ : Vec2)
    rw [hrel]
    show (⟨(0:ℝ) + 0, (0:ℝ) + 0⟩ : Vec2) = ⟨0, 0⟩
    rw [add_zero]
  refine ⟨hpos, ?_⟩
  rw [hpos]
  show Real.sqrt (Vec2.magnitude ⟨(0:ℝ) - 0, (0:ℝ) - 0⟩) = 0
  rw [sub_self]
  show Real.sqrt (Real.sqrt ((0:ℝ) ^ 2 + (0:ℝ) ^ 2)) = 0
  rw [zero_pow (Nat.succ_ne_zero 1), add_zero, Real.sqrt_zero, Real.sqrt_zero]

/-- C7 amended: every spawned star's mass is `10 / sqrt(|position -
center|)` computed from the center-relative position, with no guard for
the degenerate center case (see `spawn_center_zero_divisor`). -/
theorem spawn_mass_formula (center : Vec2) (radius direction : ℝ) (d : StarDraw) :
    (spawnStar center radius direction d).mass =
      10 / Real.sqrt (Vec2.magnitude ((spawnStar center radius direction d).pos - center)) := by
  show 10 / Real.sqrt (starRelPos radius d).magnitude =
    10 / Real.sqrt (Vec2.magnitude (starRelPos radius d + center - center))
  rw [vec_add_sub_cancel]

/-- Phase of one worker thread within a round of the barrier protocol,
src/main.cc lines 196-229: blocked in `pthread_barrier_wait` at the top
of its loop waiting for the round to start; computing forces and
integrating its owned stars; or re-arrived at the barrier after its work
(which is its arrival for the next generation). -/
inductive WPhase
  | waitStart
  | working
  | waitEnd
deriving DecidableEq

/-- Phase of the coordinator within a frame, src/main.cc lines 167-190:
in the serial merge pass; arrived at the barrier for the first time (line
188, the arrival that releases the round); arrived for the second time
(line 189, the arrival that blocks until the workers finish); or returned
from `updateStars`. -/
inductive CPhase
  | merging
  | wait1
  | wait2
  | afterRound

/-- Global configuration of the round protocol for `W` workers: each
worker's phase, the coordinator's phase, and a history flag per worker
recording whether it has completed its share of the round's computation. -/
structure Cfg (W : ℕ) where
  worker : Fin W → WPhase
  coord : CPhase
  finished : Fin W → Bool

/-- Small-step semantics of one round of the shared (W+1)-party barrier,
src/main.cc lines 188-189 (coordinator) and 196-198 (workers).  The
pthread barrier releases a generation only when all W+1 parties have
arrived for it.  `mergeDone`: the coordinator finishes the serial merge
pass and arrives at the barrier (line 188).  `releaseStart`: with the W
workers blocked at the top of their loops and the coordinator at line
188, all W+1 arrivals are in, so the barrier releases: the workers start
the round's work and the coordinator proceeds to its second arrival (line
189).  `finishWork`: one worker completes the forces and integration for
every star it owns and re-arrives at the barrier (line 198).
`releaseEnd`: with every worker re-arrived and the coordinator at line
189, all W+1 arrivals of the next generation are in, so the barrier
releases and control returns to the coordinator. -/
inductive Step (W : ℕ) : Cfg W → Cfg W → Prop
  | mergeDone (c : Cfg W) : c.coord = CPhase.merging →
      Step W c ⟨c.worker, CPhase.wait1, c.finished⟩
  | releaseStart (c : Cfg W) : c.coord = CPhase.wait1 →
      (∀ k, c.worker k = WPhase.waitStart) →
      Step W c ⟨fun _ => WPhase.working, CPhase.wait2, c.finished⟩
  | finishWork (c : Cfg W) (k : Fin W) : c.worker k = WPhase.working →
      Step W c ⟨Function.update c.worker k WPhase.waitEnd, c.coord,
        Function.update c.finished k true⟩
  | releaseEnd (c : Cfg W) : c.coord = CPhase.wait2 →
      (∀ k, c.worker k = WPhase.waitEnd) →
      Step W c ⟨c.worker, CPhase.afterRound, c.finished⟩

/-- Initial configuration of a frame: all workers blocked at the top of
their loops, the coordinator in the merge pass, no round work done. -/
def initCfg (W : ℕ) : Cfg W :=
  ⟨fun _ => WPhase.waitStart, CPhase.merging, fun _ => false⟩

/-- Configurations reachable from the start of a frame along protocol
steps. -/
def Reachable (W : ℕ) (c : Cfg W) : Prop :=
  Relation.ReflTransGen (Step W) (initCfg W) c

/-- Helper: the protocol invariant — a worker that has re-arrived at the
barrier has finished its round work, and once the coordinator's second
arrival has returned, every worker has finished. -/
theorem protocol_inv (W : ℕ) (c : Cfg W) (h : Reachable W c) :
    (∀ k, c.worker k = WPhase.waitEnd → c.finished k = true) ∧
    (c.coord = CPhase.afterRound → ∀ k, c.finished k = true) := by
  induction h with
  | refl =>
    exact ⟨fun k hk => by simp [initCfg] at hk, fun hc => by simp [initCfg] at hc⟩
  | tail hab hbc ih =>
    cases hbc with
    | mergeDone hc =>
      exact ⟨ih.1, fun h2 => by simp at h2⟩
    | releaseStart hc hw =>
      exact ⟨fun k hk => by simp at hk, fun h2 => by simp at h2⟩
    | finishWork k hk =>
      refine ⟨fun k0 hk0 => ?_, fun h2 k0 => ?_⟩
      · simp only [Function.update_apply] at hk0 ⊢
        by_cases hkk : k0 = k
        · simp [hkk]
        · simp only [if_neg hkk] at hk0 ⊢
          exact ih.1 k0 hk0
      · simp only [Function.update_apply]
        by_cases hkk : k0 = k
        · simp [hkk]
        · simp only [if_neg hkk]
          exact ih.2 h2 k0
    | releaseEnd hc hw =>
      exact ⟨ih.1, fun _ k => ih.1 k (hw k)⟩

/-- C5: after the merge pass the coordinator arrives at the round barrier
twice in succession (the model's only coordinator transitions, mirroring
the two consecutive `pthread_barrier_wait` calls of src/main.cc lines
188-189); the second arrival returns (`afterRound`) only once every one
of the W workers has finished computing and integrating all of its owned
stars for the round and re-arrived at the barrier: in every reachable
configuration in which the coordinator has returned, every worker's
round work is complete.  No synchronization other than the barrier
arrivals appears in the model. -/
theorem coordinator_blocks_until_workers_done (W : ℕ) (c : Cfg W)
    (h : Reachable W c) (hc : c.coord = CPhase.afterRound) :
    ∀ k, c.finished k = true :=
  (protocol_inv W c h).2 hc

/-- C5 witness: a complete two-worker round — merge done, round released,
both workers finish, barrier releases the coordinator — reaches a
configuration with the coordinator returned, and
`coordinator_blocks_until_workers_done` applied to that concrete run
yields that both workers finished. -/
theorem coordinator_blocks_until_workers_done_witness :
    ∃ c : Cfg 2, Reachable 2 c ∧ c.coord = CPhase.afterRound ∧
      ∀ k, c.finished k = true := by
  have s1 : Step 2 (initCfg 2)
      ⟨fun _ => WPhase.waitStart, CPhase.wait1, fun _ => false⟩ :=
    Step.mergeDone (initCfg 2) rfl
  have s2 : Step 2 (⟨fun _ => WPhase.waitStart, CPhase.wait1, fun _ => false⟩ : Cfg 2)
      ⟨fun _ => WPhase.working, CPhase.wait2, fun _ => false⟩ :=
    Step.releaseStart _ rfl (fun _ => rfl)
  have s3 : Step 2 (⟨fun _ => WPhase.working, CPhase.wait2, fun _ => false⟩ : Cfg 2)
      ⟨Function.update (fun _ => WPhase.working) (0 : Fin 2) WPhase.waitEnd,
        CPhase.wait2, Function.update (fun _ => false) (0 : Fin 2) true⟩ :=
    Step.finishWork _ 0 rfl
  have s4 : Step 2 (⟨Function.update (fun _ => WPhase.working) (0 : Fin 2) WPhase.waitEnd,
        CPhase.wait2, Function.update (fun _ => false) (0 : Fin 2) true⟩ : Cfg 2)
      ⟨Function.update (Function.update (fun _ => WPhase.working) (0 : Fin 2) WPhase.waitEnd)
          (1 : Fin 2) WPhase.waitEnd,
        CPhase.wait2,
        Function.update (Function.update (fun _ => false) (0 : Fin 2) true) (1 : Fin 2) true⟩ :=
    Step.finishWork _ 1 (by decide)
  have s5 : Step 2 (⟨Function.update (Function.update (fun _ => WPhase.working) (0 : Fin 2)
          WPhase.waitEnd) (1 : Fin 2) WPhase.waitEnd,
        CPhase.wait2,
        Function.update (Function.update (fun _ => false) (0 : Fin 2) true) (1 : Fin 2) true⟩ :
          Cfg 2)
      ⟨Function.update (Function.update (fun _ => WPhase.working) (0 : Fin 2) WPhase.waitEnd)
          (1 : Fin 2) WPhase.waitEnd,
        CPhase.afterRound,
        Function.update (Function.update (fun _ => false) (0 : Fin 2) true) (1 : Fin 2) true⟩ :=
    Step.releaseEnd _ rfl (by decide)
  have hr : Reachable 2
      ⟨Function.update (Function.update (fun _ => WPhase.working) (0 : Fin 2) WPhase.waitEnd)
          (1 : Fin 2) WPhase.waitEnd,
        CPhase.afterRound,
        Function.update (Function.update (fun _ => false) (0 : Fin 2) true) (1 : Fin 2) true⟩ :=
    (((((Relation.ReflTransGen.refl.tail s1).tail s2).tail s3).tail s4).tail s5)
  exact ⟨_, hr, rfl, coordinator_blocks_until_workers_done 2 _ hr rfl⟩

end Galaxy
